import Mathlib

/-!
Formal model of the openworkers-runtime worker supervisor.

Shallow embedding of the Rust sources:
  - `src/termination.rs`     : the `TerminationReason` enum and its HTTP mapping
  - `src/runtime.rs`         : `Worker::abort` and `Worker::exec` (dispatch and
                               termination-reason precedence)
  - `src/timeout.rs`         : the wall-clock watchdog guard
  - `src/cpu_enforcement.rs` : the per-thread CPU-time enforcer
  - `src/array_buffer_allocator.rs` : the counting array-buffer allocator
  - `src/ext/event_fetch.rs`, `src/ext/event_scheduled.rs` : host ops

Machine integers (`usize`) are modelled as `Nat` reduced modulo `2 ^ 64`
exactly where the Rust code can wrap (`fetch_add` / `fetch_sub` /
`wrapping_sub`).  Fallible operations return `Option` / `Except`.  External
effects (V8 isolate calls, OS timers, threads, channels) are modelled as
explicit action traces and environment records carrying the outcomes the
outside world can produce.
-/

namespace OpenWorkers

/-! ## String containment (Rust `str::contains`) -/

/-- Boolean test that `p` is a prefix of `s`, on character lists. -/
def strStartsL : List Char → List Char → Bool
  | _, [] => true
  | [], _ :: _ => false
  | c :: cs, p :: ps => c == p && strStartsL cs ps

/-- Boolean test that `p` occurs as a contiguous substring of `s`. -/
def strHasSubL : List Char → List Char → Bool
  | [], p => p.isEmpty
  | c :: cs, p => strStartsL (c :: cs) p || strHasSubL cs p

/-- Rust `str::contains` on Lean strings. -/
def strContains (s p : String) : Bool :=
  strHasSubL s.toList p.toList

/-! ## `src/termination.rs` -/

/-- The `TerminationReason` enum exactly as declared in `src/termination.rs`
(payload-free; the file declares no `Aborted` variant). -/
inductive TerminationReason
  | Success
  | CpuTimeLimit
  | WallClockTimeout
  | MemoryLimit
  | Exception
  | InitializationError
  | Terminated
deriving DecidableEq

/-- Rust constructor name of each variant of `TerminationReason`. -/
def TerminationReason.ctorName : TerminationReason → String
  | .Success => "Success"
  | .CpuTimeLimit => "CpuTimeLimit"
  | .WallClockTimeout => "WallClockTimeout"
  | .MemoryLimit => "MemoryLimit"
  | .Exception => "Exception"
  | .InitializationError => "InitializationError"
  | .Terminated => "Terminated"

/-- Enumeration of every variant of `TerminationReason`. -/
def TerminationReason.all : List TerminationReason :=
  [.Success, .CpuTimeLimit, .WallClockTimeout, .MemoryLimit,
   .Exception, .InitializationError, .Terminated]

/-- `TerminationReason::is_success` from `src/termination.rs`. -/
def TerminationReason.is_success : TerminationReason → Bool
  | .Success => true
  | _ => false

/-- `TerminationReason::is_limit_exceeded` from `src/termination.rs`. -/
def TerminationReason.is_limit_exceeded : TerminationReason → Bool
  | .CpuTimeLimit | .WallClockTimeout | .MemoryLimit => true
  | _ => false

/-- `TerminationReason::http_status` from `src/termination.rs`. -/
def TerminationReason.http_status : TerminationReason → Nat
  | .Success => 200
  | .CpuTimeLimit | .MemoryLimit => 429
  | .WallClockTimeout => 504
  | .Exception | .InitializationError => 500
  | .Terminated => 503

/-- Modelled from the spec: the `TerminationReason` that `src/runtime.rs`
compiles against.  `runtime.rs` constructs `TerminationReason::Aborted` and
`TerminationReason::Exception(String)`, but the `termination.rs` present in
the tree is an earlier variant without those; the module declaring this later
enum is missing from the tree.  Constructors follow spec §3 and the uses in
`runtime.rs` (`InitializationError` also carries its detail per spec §3). -/
inductive RtReason
  | Success
  | CpuTimeLimit
  | WallClockTimeout
  | MemoryLimit
  | Exception (detail : String)
  | InitializationError (detail : String)
  | Aborted
  | Terminated
deriving DecidableEq

/-! ## `src/array_buffer_allocator.rs` -/

/-- Size of the `usize` value space; the allocator's atomic counter wraps
modulo this. -/
def usizeSize : Nat := 2 ^ 64

/-- Wrapping `usize` addition (`AtomicUsize::fetch_add`). -/
def wadd (a b : Nat) : Nat := (a + b) % usizeSize

/-- Wrapping `usize` subtraction (`AtomicUsize::fetch_sub`,
`usize::wrapping_sub`); both arguments are first reduced to `usize` range. -/
def wsub (a b : Nat) : Nat := (a % usizeSize + (usizeSize - b % usizeSize)) % usizeSize

/-- State of the `CustomAllocator` from `src/array_buffer_allocator.rs`:
the configured byte cap `max` and the atomic running byte count `count`.
The `memory_limit_hit` flag is modelled from the spec (§4.4: refusal sets a
shared "memory-limit-hit" flag): the allocator file in the tree is an earlier
variant that counts and refuses identically but does not yet carry the flag
that `runtime.rs` wires in via `CustomAllocator::new(heap_max, flag)`. -/
structure CustomAllocator where
  max : Nat
  count : Nat
  memory_limit_hit : Bool
deriving DecidableEq

/-- `CustomAllocator::new(max_bytes)`: zero counter. -/
def CustomAllocator.new (max_bytes : Nat) : CustomAllocator :=
  { max := max_bytes, count := 0, memory_limit_hit := false }

/-- The `allocate` vtable entry: `fetch_add` the request, reload, and if the
total exceeds `max`, roll the increment back and return a null pointer
(`none`); flag-setting on refusal modelled from the spec.  A non-null grant
is `some ()`. -/
def CustomAllocator.allocate (al : CustomAllocator) (n : Nat) : Option Unit × CustomAllocator :=
  let n := n % usizeSize
  let count_loaded := wadd al.count n
  if count_loaded > al.max then
    (none, { al with count := wsub count_loaded n, memory_limit_hit := true })
  else
    (some (), { al with count := count_loaded })

/-- The `allocate_uninitialized` vtable entry: identical counter logic to
`allocate` (only the returned block's contents differ). -/
def CustomAllocator.allocate_uninitialized (al : CustomAllocator) (n : Nat) :
    Option Unit × CustomAllocator :=
  al.allocate n

/-- The `free` vtable entry: `fetch_sub` the freed length. -/
def CustomAllocator.free (al : CustomAllocator) (n : Nat) : CustomAllocator :=
  { al with count := wsub al.count n }

/-- The `reallocate` vtable entry: `fetch_add(newlen.wrapping_sub(oldlen))`,
reload, and on overflow roll the same delta back and return null. -/
def CustomAllocator.reallocate (al : CustomAllocator) (oldlen newlen : Nat) :
    Option Unit × CustomAllocator :=
  let delta := wsub newlen oldlen
  let count_loaded := wadd al.count delta
  if count_loaded > al.max then
    (none, { al with count := wsub count_loaded delta, memory_limit_hit := true })
  else
    (some (), { al with count := count_loaded })

/-- One engine-issued operation against the allocator.  `free` and `realloc`
designate a live buffer by its index in the live-buffer list (V8 always
passes the pointer and exact length of a block it was vended). -/
inductive AllocOp
  | alloc (n : Nat)
  | allocUninit (n : Nat)
  | free (i : Nat)
  | realloc (i : Nat) (newlen : Nat)

/-- Allocator state paired with the sizes of the live (vended, not yet
freed) buffers. -/
structure AllocModel where
  al : CustomAllocator
  live : List Nat
deriving DecidableEq

/-- Fresh allocator with no live buffers. -/
def AllocModel.mk0 (max_bytes : Nat) : AllocModel :=
  { al := CustomAllocator.new max_bytes, live := [] }

/-- Apply one engine operation to the allocator and the live-buffer list:
a successful (non-null) allocation adds a live buffer of the granted size, a
refusal adds nothing; `free` drops the designated buffer; `realloc` resizes
it on success and leaves it on refusal. -/
def AllocModel.step (m : AllocModel) : AllocOp → AllocModel
  | .alloc n =>
    let res := m.al.allocate n
    { al := res.2, live := if res.1.isSome then n % usizeSize :: m.live else m.live }
  | .allocUninit n =>
    let res := m.al.allocate_uninitialized n
    { al := res.2, live := if res.1.isSome then n % usizeSize :: m.live else m.live }
  | .free i =>
    match m.live.get? i with
    | some sz => { al := m.al.free sz, live := m.live.eraseIdx i }
    | none => m
  | .realloc i newlen =>
    match m.live.get? i with
    | some oldsz =>
      let res := m.al.reallocate oldsz newlen
      { al := res.2,
        live := if res.1.isSome then m.live.set i (newlen % usizeSize) else m.live }
    | none => m

/-- Run a sequence of engine operations from the fresh allocator. -/
def AllocModel.run (max_bytes : Nat) (ops : List AllocOp) : AllocModel :=
  ops.foldl AllocModel.step (AllocModel.mk0 max_bytes)

/-- The counting invariant: the atomic counter equals the sum of the live
buffer sizes (as the `usize` it is, i.e. modulo `2 ^ 64`), and every live
size is a `usize`. -/
def AllocInv (m : AllocModel) : Prop :=
  m.al.count = m.live.sum % usizeSize ∧ ∀ x ∈ m.live, x < usizeSize

/-! ## `src/cpu_enforcement.rs` -/

/-- Platform facts and OS-call outcomes relevant to `CpuEnforcer::new`:
whether the target is Linux (the only target compiled with the real
implementation) and whether `timer_create` / `timer_settime` succeed. -/
structure CpuPlatform where
  isLinux : Bool
  timerCreateOk : Bool
  timerSettimeOk : Bool
deriving DecidableEq

/-- A live CPU enforcer: its POSIX timer id, its registry key, and the
current value of its shared `terminated` flag. -/
structure CpuEnforcer where
  timer_id : Nat
  enforcer_id : Nat
  terminated : Bool
deriving DecidableEq

/-- Externally visible side effects of `CpuEnforcer::new`. -/
inductive CpuAction
  | timerCreate
  | registryInsert (id : Nat)
  | timerArm
  | timerDelete
  | registryRemove (id : Nat)
deriving DecidableEq

/-- `CpuEnforcer::new(isolate_handle, timeout_ms)`.  The registry is the set
of registered enforcer ids (the process-wide map keyed by id); `id` is the
value drawn from the monotone `ENFORCER_COUNTER`.  Returns the optional
enforcer, the registry afterwards, and the trace of timer/registry effects.
On non-Linux targets the stub returns `None` unconditionally; on Linux a zero
budget returns `None` before any timer or registry action; a `timer_settime`
failure deletes the timer and unregisters before returning `None`. -/
def CpuEnforcer.new (p : CpuPlatform) (id : Nat) (registry : List Nat) (timeout_ms : Nat) :
    Option CpuEnforcer × List Nat × List CpuAction :=
  if p.isLinux = false then
    (none, registry, [])
  else if timeout_ms = 0 then
    (none, registry, [])
  else if p.timerCreateOk = false then
    (none, registry, [.timerCreate])
  else if p.timerSettimeOk = false then
    (none, ((id :: registry).erase id),
      [.timerCreate, .registryInsert id, .timerArm, .timerDelete, .registryRemove id])
  else
    (some { timer_id := id, enforcer_id := id, terminated := false }, id :: registry,
      [.timerCreate, .registryInsert id, .timerArm])

/-- `CpuEnforcer::was_terminated`: read of the shared flag. -/
def CpuEnforcer.was_terminated (e : CpuEnforcer) : Bool :=
  e.terminated

/-- The value of `cpu_limit_hit` computed in `Worker::exec`:
`cpu_enforcer.as_ref().map(|e| e.was_terminated()).unwrap_or(false)`,
where `fired` says whether the signal-processing thread set the shared flag
during the dispatch. -/
def cpuLimitHitOf (e : Option CpuEnforcer) (fired : Bool) : Bool :=
  match e with
  | none => false
  | some _ => fired

/-! ## `src/timeout.rs` -/

/-- The wall-clock watchdog guard.  `armed` is whether `cancel_tx` and the
watchdog thread exist (budget not 0).  The `triggered` flag read back by
`Worker::exec` through `was_triggered()` is modelled from the spec (§4.3:
timeout first "calls terminate-execution on the isolate and sets a triggered
flag"): the `timeout.rs` in the tree is an earlier variant whose watchdog
terminates without yet recording the flag that `runtime.rs` reads. -/
structure TimeoutGuard where
  armed : Bool
  triggered : Bool
deriving DecidableEq

/-- `TimeoutGuard::new(isolate_handle, timeout_ms)`: budget 0 yields the
disabled guard (no thread, no channel). -/
def TimeoutGuard.new (timeout_ms : Nat) : TimeoutGuard :=
  { armed := timeout_ms != 0, triggered := false }

/-- What the watchdog thread's `recv_timeout` wait observed first. -/
inductive WatchdogWait
  | cancelled
  | timedOut
  | disconnected
deriving DecidableEq

/-- Outcome of the watchdog thread body: whether `terminate_execution` was
called on the isolate, and the guard afterwards (its `triggered` flag).  A
disarmed guard has no thread, so nothing happens. -/
def TimeoutGuard.runWatchdog (g : TimeoutGuard) (w : WatchdogWait) : Bool × TimeoutGuard :=
  if g.armed then
    match w with
    | .cancelled => (false, g)
    | .timedOut => (true, { g with triggered := true })
    | .disconnected => (false, g)
  else
    (false, g)

/-- `TimeoutGuard::was_triggered`: read of the triggered flag. -/
def TimeoutGuard.was_triggered (g : TimeoutGuard) : Bool :=
  g.triggered

/-- Steps taken by `Drop for TimeoutGuard`. -/
inductive GuardDropAction
  | sendCancel
  | joinThread
deriving DecidableEq

/-- `Drop for TimeoutGuard`: send cancellation on the channel if present,
then join the watchdog thread if present (both present exactly when the
guard was armed). -/
def TimeoutGuard.dropGuard (g : TimeoutGuard) : List GuardDropAction :=
  (if g.armed then [GuardDropAction.sendCancel] else []) ++
    (if g.armed then [GuardDropAction.joinThread] else [])

/-! ## `src/runtime.rs`: Worker, abort, exec -/

/-- `RuntimeLimits` (spec §3; field names as used by `runtime.rs`). -/
structure RuntimeLimits where
  heap_initial_mb : Nat
  heap_max_mb : Nat
  max_cpu_time_ms : Nat
  max_wall_clock_time_ms : Nat
deriving DecidableEq

/-- Worker state visible to `abort` / `exec`: the shared `aborted` flag, the
shared allocator overflow flag, the limits, and whether `terminate_execution`
has been requested on the isolate handle. -/
structure Worker where
  limits : RuntimeLimits
  memory_limit_hit_flag : Bool
  aborted : Bool
  terminateRequested : Bool
deriving DecidableEq

/-- `Worker::abort`: store the aborted flag, then `terminate_execution`. -/
def Worker.abort (w : Worker) : Worker :=
  { w with aborted := true, terminateRequested := true }

/-- Environment of one `exec` dispatch: platform facts, the enforcer id and
registry, and the outcomes produced by the outside world during the drive
(whether the CPU signal fired, what the watchdog observed, whether the outer
tokio timeout elapsed before the event loop finished, whether the allocator
set the overflow flag, whether `abort` was called concurrently, the captured
synchronous trigger exception, and the event loop's own result). -/
structure ExecEnv where
  platform : CpuPlatform
  enforcerId : Nat
  registry : List Nat
  cpuFired : Bool
  wallWait : WatchdogWait
  outerTimeoutElapsed : Bool
  allocOverflow : Bool
  abortedDuring : Bool
  triggerException : Option String
  eventLoopResult : Except String Unit

/-- Host-side steps of `Worker::exec`, in program order. -/
inductive ExecAction
  | startCpuTimer
  | armCpuEnforcer
  | armWallGuard
  | insertTask
  | invokeTrigger
  | outerTerminate
deriving DecidableEq

/-- The error string produced by the outer tokio timeout branch. -/
def wallTimeoutMsg : String := "Wall-clock timeout exceeded"

/-- Memory-pattern test applied to the synchronous trigger exception in
`Worker::exec` (patterns in the order written there). -/
def memPatternTrigger (msg : String) : Bool :=
  strContains msg "Array buffer allocation failed" ||
    strContains msg "RangeError" ||
    strContains msg "out of memory"

/-- Memory-pattern test applied to the event-loop error in `Worker::exec`
(same patterns, the order written in that branch). -/
def memPatternDrive (msg : String) : Bool :=
  strContains msg "out of memory" ||
    strContains msg "Array buffer allocation failed" ||
    strContains msg "RangeError"

/-- The CPU enforcer constructed by `exec` for this dispatch. -/
def execCpuEnforcer (w : Worker) (env : ExecEnv) : Option CpuEnforcer :=
  (CpuEnforcer.new env.platform env.enforcerId env.registry w.limits.max_cpu_time_ms).1

/-- The wall guard's state once the dispatch's drive is over (the watchdog
has observed `env.wallWait` by then, or never ran if disarmed). -/
def execWallGuard (w : Worker) (env : ExecEnv) : TimeoutGuard :=
  ((TimeoutGuard.new w.limits.max_wall_clock_time_ms).runWatchdog env.wallWait).2

/-- The `result` value of `exec`: the event-loop drive, wrapped in the outer
tokio timeout when `max_wall_clock_time_ms > 0`; on outer expiry the branch
terminates the isolate and substitutes `Err("Wall-clock timeout exceeded")`. -/
def execResult (w : Worker) (env : ExecEnv) : Except String Unit :=
  if w.limits.max_wall_clock_time_ms > 0 then
    if env.outerTimeoutElapsed then Except.error wallTimeoutMsg
    else env.eventLoopResult
  else
    env.eventLoopResult

/-- The `tokio_timeout_hit` test of `exec`: the result is an error whose
text contains `"Wall-clock timeout exceeded"`. -/
def execTokioHit (w : Worker) (env : ExecEnv) : Bool :=
  match execResult w env with
  | Except.error e => strContains e wallTimeoutMsg
  | Except.ok _ => false

/-- The `Result` value computed by the non-aborted path of `Worker::exec`:
the termination-reason cascade of `src/runtime.rs` lines 318-388 over the
guard flags (`cpu_limit_hit`, `wall_clock_hit`, `tokio_timeout_hit`), the
swapped memory flag, the aborted flag, the captured trigger exception, and
the wrapped event-loop result, in exactly that order. -/
def execReason (w : Worker) (env : ExecEnv) : Except RtReason Unit :=
  let memory_limit_hit := w.memory_limit_hit_flag || env.allocOverflow
  let cpu_limit_hit := cpuLimitHitOf (execCpuEnforcer w env) env.cpuFired
  let wall_clock_hit := (execWallGuard w env).was_triggered
  let tokio_timeout_hit := execTokioHit w env
  if cpu_limit_hit then Except.error RtReason.CpuTimeLimit
  else if wall_clock_hit || tokio_timeout_hit then Except.error RtReason.WallClockTimeout
  else if memory_limit_hit then Except.error RtReason.MemoryLimit
  else if env.abortedDuring then Except.error RtReason.Aborted
  else
    match env.triggerException with
    | some msg =>
      if memPatternTrigger msg then Except.error RtReason.MemoryLimit
      else Except.error (RtReason.Exception msg)
    | none =>
      match execResult w env with
      | Except.error e =>
        if memPatternDrive e then Except.error RtReason.MemoryLimit
        else Except.error (RtReason.Exception e)
      | Except.ok _ => Except.ok ()

/-- Whether the outer tokio timeout branch ran (and called
`terminate_execution`). -/
def execOuterFired (w : Worker) (env : ExecEnv) : Bool :=
  decide (w.limits.max_wall_clock_time_ms > 0) && env.outerTimeoutElapsed

/-- Worker state after the non-aborted path of `exec`: the memory flag was
read with `swap(false)`, the aborted flag holds whatever a concurrent
`abort` stored, and `terminate_execution` was requested by whichever
preemption paths fired. -/
def execPost (w : Worker) (env : ExecEnv) : Worker :=
  { w with
    memory_limit_hit_flag := false
    aborted := env.abortedDuring
    terminateRequested := w.terminateRequested || env.abortedDuring ||
      (cpuLimitHitOf (execCpuEnforcer w env) env.cpuFired) ||
      (((TimeoutGuard.new w.limits.max_wall_clock_time_ms).runWatchdog env.wallWait).1) ||
      execOuterFired w env }

/-- Host-side actions of the non-aborted path of `exec`, in program order:
start the CPU timer, arm whichever guards construct, insert the task and
invoke the trigger, and terminate on outer expiry. -/
def execActions (w : Worker) (env : ExecEnv) : List ExecAction :=
  [ExecAction.startCpuTimer] ++
    (if (execCpuEnforcer w env).isSome then [ExecAction.armCpuEnforcer] else []) ++
    (if (TimeoutGuard.new w.limits.max_wall_clock_time_ms).armed then
      [ExecAction.armWallGuard] else []) ++
    [ExecAction.insertTask, ExecAction.invokeTrigger] ++
    (if execOuterFired w env then [ExecAction.outerTerminate] else [])

/-- `Worker::exec(task)` from `src/runtime.rs`: the early aborted return,
then guard arming, task dispatch, the outer-timeout-wrapped event-loop
drive, flag reads, and the termination-reason cascade.  Returns `exec`'s
`Result`, the worker state afterwards, and the trace of host-side actions. -/
def Worker.exec (w : Worker) (env : ExecEnv) :
    Except RtReason Unit × Worker × List ExecAction :=
  if w.aborted then
    (Except.error RtReason.Aborted, w, [])
  else
    (execReason w env, execPost w env, execActions w env)

/-! ## Spec-side precedence (claim C1's wording) -/

/-- The claim's single memory-pattern set, in the order the claim lists it:
"Array buffer allocation failed", "RangeError", "out of memory". -/
def specMemPattern (msg : String) : Bool :=
  strContains msg "Array buffer allocation failed" ||
    strContains msg "RangeError" ||
    strContains msg "out of memory"

/-- Termination-reason precedence exactly as the claim words it, over
abstract trigger facts: CPU enforcer triggered, wall guard or outer wait
triggered, overflow flag, aborted, synchronous trigger exception, event-loop
drive error. -/
def specReason (cpuTriggered wallOrOuter memFlag aborted : Bool)
    (trigExc : Option String) (driveErr : Option String) : Except RtReason Unit :=
  if cpuTriggered then Except.error RtReason.CpuTimeLimit
  else if wallOrOuter then Except.error RtReason.WallClockTimeout
  else if memFlag then Except.error RtReason.MemoryLimit
  else if aborted then Except.error RtReason.Aborted
  else
    match trigExc with
    | some msg =>
      if specMemPattern msg then Except.error RtReason.MemoryLimit
      else Except.error (RtReason.Exception msg)
    | none =>
      match driveErr with
      | some e =>
        if specMemPattern e then Except.error RtReason.MemoryLimit
        else Except.error (RtReason.Exception e)
      | none => Except.ok ()

/-- The drive error as the claim sees it: the event loop's own result. -/
def driveErrOf (env : ExecEnv) : Option String :=
  match env.eventLoopResult with
  | Except.error e => some e
  | Except.ok _ => none

/-- Claim C1's reading of "the wall-clock guard or the outer timed wait
triggered": the guard's flag, or the outer timed wait actually elapsing
(which requires a non-zero wall budget). -/
def claimWallOrOuter (w : Worker) (env : ExecEnv) : Bool :=
  (execWallGuard w env).was_triggered ||
    (decide (w.limits.max_wall_clock_time_ms > 0) && env.outerTimeoutElapsed)

/-- The termination result claim C1 predicts for a dispatch: the claim's
precedence applied to the dispatch's actual trigger facts. -/
def claimReasonC1 (w : Worker) (env : ExecEnv) : Except RtReason Unit :=
  specReason (cpuLimitHitOf (execCpuEnforcer w env) env.cpuFired)
    (claimWallOrOuter w env)
    (w.memory_limit_hit_flag || env.allocOverflow)
    env.abortedDuring env.triggerException (driveErrOf env)

/-- The amended claim's reading of the wall step: the guard's flag, or a
drive result whose error text contains `"Wall-clock timeout exceeded"` (the
marker by which `exec` detects the outer timed wait's trip). -/
def amendedWallOrOuter (w : Worker) (env : ExecEnv) : Bool :=
  (execWallGuard w env).was_triggered || execTokioHit w env

/-- The termination result the amended claim C1 predicts for a dispatch. -/
def claimReasonC1Amended (w : Worker) (env : ExecEnv) : Except RtReason Unit :=
  specReason (cpuLimitHitOf (execCpuEnforcer w env) env.cpuFired)
    (amendedWallOrOuter w env)
    (w.memory_limit_hit_flag || env.allocOverflow)
    env.abortedDuring env.triggerException (driveErrOf env)

/-! ## `src/ext/event_fetch.rs` and `src/ext/event_scheduled.rs` -/

/-- Response status and headers (`ResponseMeta`). -/
structure ResponseMeta where
  status : Nat
  headers : List (String × String)
deriving DecidableEq

/-- A chunk travelling on the streaming body channel:
`Result<Bytes, String>` with bytes as a list. -/
def Chunk : Type := Except String (List Nat)

/-- Bounded mpsc channel for streaming body chunks: capacity and FIFO
buffer. -/
structure Chan where
  cap : Nat
  buf : List Chunk

/-- Bounded `send`: enqueue at the back if a slot is free, otherwise the
async op suspends (`none`). -/
def Chan.send (c : Chan) (x : Chunk) : Option Chan :=
  if c.buf.length < c.cap then some { c with buf := c.buf ++ [x] } else none

/-- `recv`: dequeue from the front. -/
def Chan.recv (c : Chan) : Option (Chunk × Chan) :=
  match c.buf with
  | [] => none
  | x :: rest => some (x, { c with buf := rest })

/-- `STREAM_BUFFER_SIZE` from `src/ext/event_fetch.rs`. -/
def STREAM_BUFFER_SIZE : Nat := 16

/-- Resources held in the isolate's resource table, as the host ops type
them: the pending fetch task payload (`FetchInit`), the fetch response sink
(`FetchTx`), the streaming chunk sender (`FetchStreamTx`), and the scheduled
task payload (`ScheduledInit`).  `sinkAlive` is whether the one-shot
receiver still exists. -/
inductive Res
  | fetchInit (req : Nat) (sinkAlive : Bool)
  | fetchTx (sinkAlive : Bool)
  | fetchStreamTx (chanId : Nat)
  | scheduledInit (time : Nat) (sinkAlive : Bool)
deriving DecidableEq

/-- The resource table: rid/resource pairs plus the next rid to assign. -/
structure ResourceTable where
  entries : List (Nat × Res)
  next : Nat
deriving DecidableEq

/-- The empty resource table. -/
def ResourceTable.empty : ResourceTable :=
  { entries := [], next := 0 }

/-- `resource_table.add`: assign the next rid. -/
def ResourceTable.add (t : ResourceTable) (r : Res) : Nat × ResourceTable :=
  (t.next, { entries := t.entries ++ [(t.next, r)], next := t.next + 1 })

/-- Look up a rid. -/
def ResourceTable.find (t : ResourceTable) (rid : Nat) : Option Res :=
  t.entries.lookup rid

/-- Remove a rid (the effect of `resource_table.take`). -/
def ResourceTable.remove (t : ResourceTable) (rid : Nat) : ResourceTable :=
  { t with entries := t.entries.filter (fun e => e.1 != rid) }

/-- Outcome of a host op as the script observes it: a value and the table
afterwards, a script-visible resource error (`ResourceError`; the table is
unchanged), or a host panic. -/
inductive OpOutcome (α : Type)
  | ok (v : α) (t : ResourceTable)
  | resErr (t : ResourceTable)
  | panicked
deriving DecidableEq

/-- Whether `rid` currently holds a `FetchInit`. -/
def ResourceTable.hasFetchInit (t : ResourceTable) (rid : Nat) : Bool :=
  match t.find rid with
  | some (Res.fetchInit _ _) => true
  | _ => false

/-- Whether `rid` currently holds a `FetchTx`. -/
def ResourceTable.hasFetchTx (t : ResourceTable) (rid : Nat) : Bool :=
  match t.find rid with
  | some (Res.fetchTx _) => true
  | _ => false

/-- Whether `rid` currently holds a `FetchStreamTx`. -/
def ResourceTable.hasFetchStreamTx (t : ResourceTable) (rid : Nat) : Bool :=
  match t.find rid with
  | some (Res.fetchStreamTx _) => true
  | _ => false

/-- Whether `rid` currently holds a `ScheduledInit`. -/
def ResourceTable.hasScheduledInit (t : ResourceTable) (rid : Nat) : Bool :=
  match t.find rid with
  | some (Res.scheduledInit _ _) => true
  | _ => false

/-- `op_fetch_init`: `resource_table.take::<FetchInit>(rid).unwrap()` — a
missing or wrong-typed rid makes the `unwrap` panic; otherwise the payload
is taken out and a new `FetchTx` handle is registered and returned with the
request. -/
def op_fetch_init (t : ResourceTable) (rid : Nat) : OpOutcome (Nat × Nat) :=
  match t.find rid with
  | some (Res.fetchInit req alive) =>
    let t1 := t.remove rid
    let (rid2, t2) := t1.add (Res.fetchTx alive)
    OpOutcome.ok (req, rid2) t2
  | _ => OpOutcome.panicked

/-- `op_fetch_respond`: `take::<FetchTx>(rid)?` — a missing or wrong-typed
rid is returned to the script as a `ResourceError`; otherwise the buffered
response is sent on the sink (`let _ = tx.0.send(..)`) and the handle is
closed. -/
def op_fetch_respond (t : ResourceTable) (rid : Nat) (meta : ResponseMeta)
    (body : Option (List Nat)) : OpOutcome (ResponseMeta × Option (List Nat)) :=
  match t.find rid with
  | some (Res.fetchTx _) => OpOutcome.ok (meta, body) (t.remove rid)
  | _ => OpOutcome.resErr t

/-- A streaming response as delivered on the sink by
`op_fetch_respond_stream_start`: status and headers immediately, with the
receiving end of the chunk channel. -/
structure StreamResponse where
  status : Nat
  headers : List (String × String)
  chan : Chan

/-- `op_fetch_respond_stream_start`: `take::<FetchTx>(rid)?`, create the
chunk channel with `STREAM_BUFFER_SIZE` slots, send the response (status,
headers, stream receiver) on the sink immediately, register the sender as a
new handle and return it. -/
def op_fetch_respond_stream_start (t : ResourceTable) (rid : Nat) (meta : ResponseMeta) :
    OpOutcome (Nat × StreamResponse) :=
  match t.find rid with
  | some (Res.fetchTx _) =>
    let chan : Chan := { cap := STREAM_BUFFER_SIZE, buf := [] }
    let t1 := t.remove rid
    let (rid2, t2) := t1.add (Res.fetchStreamTx t1.next)
    OpOutcome.ok (rid2, { status := meta.status, headers := meta.headers, chan := chan }) t2
  | _ => OpOutcome.resErr t

/-- `op_fetch_respond_stream_chunk`: `get::<FetchStreamTx>(rid)?` — a
missing or wrong-typed rid is a `ResourceError`; otherwise the chunk is sent
on the (cloned) channel sender, suspending under backpressure.  The handle
stays in the table. -/
def op_fetch_respond_stream_chunk (t : ResourceTable) (rid : Nat) (chunk : List Nat) :
    OpOutcome (List Nat) :=
  match t.find rid with
  | some (Res.fetchStreamTx _) => OpOutcome.ok chunk t
  | _ => OpOutcome.resErr t

/-- `op_fetch_respond_stream_end`: `take::<FetchStreamTx>(rid)?` — dropping
the taken sender closes the channel. -/
def op_fetch_respond_stream_end (t : ResourceTable) (rid : Nat) : OpOutcome Unit :=
  match t.find rid with
  | some (Res.fetchStreamTx _) => OpOutcome.ok () (t.remove rid)
  | _ => OpOutcome.resErr t

/-- `op_scheduled_init`: `get::<ScheduledInit>(rid).unwrap()` — a missing or
wrong-typed rid makes the `unwrap` panic; otherwise the event's time is
returned and the handle stays in the table. -/
def op_scheduled_init (t : ResourceTable) (rid : Nat) : OpOutcome (Nat × Nat) :=
  match t.find rid with
  | some (Res.scheduledInit time _) => OpOutcome.ok (rid, time) t
  | _ => OpOutcome.panicked

/-- `op_scheduled_respond`: `take::<ScheduledInit>(rid)` — `Err` is returned
to the script as a `ResourceError`; on success the completion is signalled
with `res_tx.send(()).unwrap()`, which panics only if the host already
dropped the receiver. -/
def op_scheduled_respond (t : ResourceTable) (rid : Nat) : OpOutcome Unit :=
  match t.find rid with
  | some (Res.scheduledInit _ alive) =>
    if alive then OpOutcome.ok () (t.remove rid) else OpOutcome.panicked
  | _ => OpOutcome.resErr t

/-! ## Streaming producer/consumer machine (claim C9) -/

/-- State of one streaming response: the chunks the script still intends to
send, the channel, and the chunks the consumer has observed so far. -/
structure StreamRun where
  pending : List Chunk
  chan : Chan
  received : List Chunk

/-- One scheduling step: the producer attempts a bounded `send` of its next
chunk (suspending unchanged when the buffer is full), or the consumer
attempts a `recv` (idle when the buffer is empty). -/
inductive StreamStep
  | produce
  | consume

/-- Apply one scheduling step. -/
def StreamRun.step (s : StreamRun) : StreamStep → StreamRun
  | .produce =>
    match s.pending with
    | [] => s
    | x :: rest =>
      match s.chan.send x with
      | some c2 => { s with pending := rest, chan := c2 }
      | none => s
  | .consume =>
    match s.chan.recv with
    | some (y, c2) => { s with chan := c2, received := s.received ++ [y] }
    | none => s

/-- Run a schedule from a fresh `STREAM_BUFFER_SIZE`-slot channel. -/
def StreamRun.run (chunks : List Chunk) (steps : List StreamStep) : StreamRun :=
  steps.foldl StreamRun.step
    { pending := chunks, chan := { cap := STREAM_BUFFER_SIZE, buf := [] }, received := [] }

/-! ## Concrete inputs used by counterexamples and witnesses -/

/-- A live worker with both time limits disabled. -/
def c1w : Worker :=
  { limits := { heap_initial_mb := 1, heap_max_mb := 128,
                max_cpu_time_ms := 0, max_wall_clock_time_ms := 0 },
    memory_limit_hit_flag := false, aborted := false, terminateRequested := false }

/-- A dispatch in which no guard fires and no allocation fails, but the
event loop itself returns an error whose text happens to contain
"Wall-clock timeout exceeded" (a script can produce this by throwing such an
error). -/
def c1env : ExecEnv :=
  { platform := { isLinux := true, timerCreateOk := true, timerSettimeOk := true },
    enforcerId := 1, registry := [], cpuFired := false,
    wallWait := WatchdogWait.cancelled, outerTimeoutElapsed := false,
    allocOverflow := false, abortedDuring := false, triggerException := none,
    eventLoopResult := Except.error wallTimeoutMsg }

/-- A first dispatch during which the allocator overflows (it set the shared
flag) while the event loop still finishes cleanly. -/
def c10env1 : ExecEnv :=
  { platform := { isLinux := true, timerCreateOk := true, timerSettimeOk := true },
    enforcerId := 2, registry := [], cpuFired := false,
    wallWait := WatchdogWait.cancelled, outerTimeoutElapsed := false,
    allocOverflow := true, abortedDuring := false, triggerException := none,
    eventLoopResult := Except.ok () }

/-- A clean second dispatch: no overflow, no exception, clean drive. -/
def c10env2 : ExecEnv :=
  { platform := { isLinux := true, timerCreateOk := true, timerSettimeOk := true },
    enforcerId := 3, registry := [], cpuFired := false,
    wallWait := WatchdogWait.cancelled, outerTimeoutElapsed := false,
    allocOverflow := false, abortedDuring := false, triggerException := none,
    eventLoopResult := Except.ok () }

/-- A table holding one scheduled task payload at rid 0. -/
def c8table : ResourceTable :=
  (ResourceTable.empty.add (Res.scheduledInit 42 true)).2

/-- A table holding one fetch response sink at rid 0. -/
def c9table : ResourceTable :=
  (ResourceTable.empty.add (Res.fetchTx true)).2

/-- A first concrete stream chunk. -/
def c9chunk1 : Chunk := Except.ok [1, 2]

/-- A second concrete stream chunk. -/
def c9chunk2 : Chunk := Except.ok [3]

/-! ## Theorems -/

/-- The outer-timeout error message contains itself. -/
theorem strContains_wall_self : strContains wallTimeoutMsg wallTimeoutMsg = true := by
  decide

/-- The trigger-exception memory-pattern test is the claim's pattern set
verbatim. -/
theorem memPatternTrigger_eq_spec (s : String) : memPatternTrigger s = specMemPattern s :=
  rfl

/-- The drive-error memory-pattern test is the claim's pattern set up to the
order of the disjuncts. -/
theorem memPatternDrive_eq_spec (s : String) : memPatternDrive s = specMemPattern s := by
  unfold memPatternDrive specMemPattern
  cases strContains s "out of memory" <;>
    cases strContains s "Array buffer allocation failed" <;>
      cases strContains s "RangeError" <;> rfl

/-- When the tokio-timeout test is negative, the wrapped result is the event
loop's own result (the substituted outer-timeout error would have tested
positive). -/
theorem execResult_of_tokio_false (w : Worker) (env : ExecEnv)
    (h : execTokioHit w env = false) : execResult w env = env.eventLoopResult := by
  unfold execResult
  unfold execTokioHit execResult at h
  by_cases hw : w.limits.max_wall_clock_time_ms > 0
  · by_cases ho : env.outerTimeoutElapsed
    · simp [hw, ho, strContains_wall_self] at h
    · simp [hw, ho]
  · simp [hw]

/-- The cascade of `runtime.rs` equals the spec-side precedence applied to
the flags `exec` computes, with the amended wall step (guard flag or
tokio-detected trip) and the single memory-pattern set. -/
theorem execReason_eq_spec (w : Worker) (env : ExecEnv) :
    execReason w env =
      specReason (cpuLimitHitOf (execCpuEnforcer w env) env.cpuFired)
        ((execWallGuard w env).was_triggered || execTokioHit w env)
        (w.memory_limit_hit_flag || env.allocOverflow)
        env.abortedDuring env.triggerException (driveErrOf env) := by
  unfold execReason specReason
  cases hc : cpuLimitHitOf (execCpuEnforcer w env) env.cpuFired
  · cases hw : (execWallGuard w env).was_triggered
    · cases ht : execTokioHit w env
      · simp only [Bool.or_self, Bool.false_eq_true, if_false]
        cases hm : w.memory_limit_hit_flag || env.allocOverflow
        · cases ha : env.abortedDuring
          · cases henv : env.triggerException with
            | some msg => simp [memPatternTrigger_eq_spec]
            | none =>
              rw [execResult_of_tokio_false w env ht]
              unfold driveErrOf
              cases env.eventLoopResult with
              | error e => simp [memPatternDrive_eq_spec]
              | ok v => rfl
          · simp
        · simp
      · simp
    · simp
  · simp

/-- With a false overflow flag and no memory-pattern text in the exception
or drive error, the precedence never lands on `MemoryLimit`. -/
theorem specReason_ne_memory (c wv ab : Bool) (trig drive : Option String)
    (ht : ∀ msg, trig = some msg → specMemPattern msg = false)
    (hd : ∀ e, drive = some e → specMemPattern e = false) :
    specReason c wv false ab trig drive ≠ Except.error RtReason.MemoryLimit := by
  unfold specReason
  cases c
  · cases wv
    · cases ab
      · cases trig with
        | some msg => simp [ht msg rfl]
        | none =>
          cases drive with
          | some e => simp [hd e rfl]
          | none => simp
      · simp
    · simp
  · simp

/-- C1 counterexample: with both limits disabled, no guard fired, and the
event loop returning an error whose text contains "Wall-clock timeout
exceeded", `exec` reports `WallClockTimeout`, while the claim's precedence
— neither the wall guard nor the outer timed wait triggered — demands
`Exception(detail)`. -/
theorem C1_precedence_cex :
    (Worker.exec c1w c1env).1 = Except.error RtReason.WallClockTimeout ∧
    claimReasonC1 c1w c1env = Except.error (RtReason.Exception wallTimeoutMsg) ∧
    (Except.error RtReason.WallClockTimeout : Except RtReason Unit) ≠
      Except.error (RtReason.Exception wallTimeoutMsg) := by
  refine ⟨rfl, rfl, by simp⟩

/-- C1 amended: for every non-aborted dispatch, `exec`'s result is the
claimed precedence (CPU, then wall, then memory flag, then abort, then
trigger exception with the memory-pattern rule, then drive error with the
same rule, else success), with the wall step amended to: the wall-clock
guard triggered, or the wrapped drive result is an error whose text contains
"Wall-clock timeout exceeded" (the marker by which `exec` records the outer
timed wait's trip, which a script-produced error text can also satisfy). -/
theorem C1_precedence_amended (w : Worker) (env : ExecEnv) (h : w.aborted = false) :
    (Worker.exec w env).1 = claimReasonC1Amended w env := by
  have hfst : (Worker.exec w env).1 = execReason w env := by
    simp [Worker.exec, h]
  rw [hfst, execReason_eq_spec]
  rfl

/-- C1 amended, witnessed at a concrete dispatch. -/
theorem C1_precedence_amended_witness :
    (Worker.exec c1w c1env).1 = claimReasonC1Amended c1w c1env :=
  C1_precedence_amended c1w c1env rfl

/-- C10: a non-aborted `exec` reads the memory flag with `swap(false)`, so
the worker leaves the dispatch with the flag cleared; a later dispatch in
which the allocator does not overflow and whose exception/drive texts match
no memory pattern can therefore not report `MemoryLimit`, whatever the first
dispatch recorded. -/
theorem C10_flag_swap (w : Worker) (env1 env2 : ExecEnv)
    (h : w.aborted = false)
    (h2 : env2.allocOverflow = false)
    (h3 : ∀ msg, env2.triggerException = some msg → specMemPattern msg = false)
    (h4 : ∀ e, env2.eventLoopResult = Except.error e → specMemPattern e = false) :
    (Worker.exec w env1).2.1.memory_limit_hit_flag = false ∧
    (Worker.exec (Worker.exec w env1).2.1 env2).1 ≠ Except.error RtReason.MemoryLimit := by
  have hpost : (Worker.exec w env1).2.1 = execPost w env1 := by
    simp [Worker.exec, h]
  have hflag : (execPost w env1).memory_limit_hit_flag = false := rfl
  refine ⟨by rw [hpost]; exact hflag, ?_⟩
  rw [hpost]
  have h4' : ∀ e, driveErrOf env2 = some e → specMemPattern e = false := by
    intro e he
    unfold driveErrOf at he
    cases hres : env2.eventLoopResult with
    | error e2 =>
      rw [hres] at he
      injection he with h6
      subst h6
      exact h4 e2 hres
    | ok v =>
      rw [hres] at he
      exact Option.noConfusion he
  by_cases ha : (execPost w env1).aborted
  · simp [Worker.exec, ha]
  · have hexec : (Worker.exec (execPost w env1) env2).1 = execReason (execPost w env1) env2 := by
      simp [Worker.exec, ha]
    rw [hexec, execReason_eq_spec, hflag, h2]
    simp only [Bool.or_self]
    exact specReason_ne_memory _ _ _ _ _ h3 h4'

/-- C10, witnessed at a concrete pair of dispatches: the first overflows the
allocator, the second is clean. -/
theorem C10_flag_swap_witness :
    (Worker.exec c1w c10env1).2.1.memory_limit_hit_flag = false ∧
    (Worker.exec (Worker.exec c1w c10env1).2.1 c10env2).1 ≠
      Except.error RtReason.MemoryLimit :=
  C10_flag_swap c1w c10env1 c10env2 rfl rfl
    (fun _ hm => Option.noConfusion hm) (fun _ he => Except.noConfusion he)

/-- C2 counterexample: the claim says the closed set `TerminationReason`
contains an `Aborted` member (mapped to 503), but the enum declared in
`src/termination.rs` has no such variant: no inhabitant's constructor name
is "Aborted". -/
theorem C2_http_status_cex :
    ¬ ∃ r : TerminationReason, r.ctorName = "Aborted" := by
  rintro ⟨r, h⟩
  cases r <;> exact absurd h (by decide)

/-- C2 amended: `TerminationReason` is the closed set of exactly `Success`,
`CpuTimeLimit`, `WallClockTimeout`, `MemoryLimit`, `Exception`,
`InitializationError`, `Terminated` (payload-free, no `Aborted` variant),
and `http_status` maps Success to 200, CpuTimeLimit and MemoryLimit to 429,
WallClockTimeout to 504, Exception and InitializationError to 500, and
Terminated to 503. -/
theorem C2_http_status_amended :
    (∀ r : TerminationReason, r ∈ TerminationReason.all) ∧
    TerminationReason.all.map TerminationReason.ctorName =
      ["Success", "CpuTimeLimit", "WallClockTimeout", "MemoryLimit",
       "Exception", "InitializationError", "Terminated"] ∧
    TerminationReason.http_status .Success = 200 ∧
    TerminationReason.http_status .CpuTimeLimit = 429 ∧
    TerminationReason.http_status .MemoryLimit = 429 ∧
    TerminationReason.http_status .WallClockTimeout = 504 ∧
    TerminationReason.http_status .Exception = 500 ∧
    TerminationReason.http_status .InitializationError = 500 ∧
    TerminationReason.http_status .Terminated = 503 := by
  refine ⟨fun r => ?_, by decide, rfl, rfl, rfl, rfl, rfl, rfl, rfl⟩
  cases r <;> simp [TerminationReason.all]

/-- C3: on an aborted Worker, `exec` returns `Aborted` immediately: the
result is `Err(Aborted)`, the worker state (beyond what `abort` itself
stored) is unchanged, and no host-side action — CPU timer start, guard
arming, task insertion, trigger invocation — is taken. -/
theorem C3_exec_after_abort (w : Worker) (env : ExecEnv) :
    Worker.exec (Worker.abort w) env =
      (Except.error RtReason.Aborted, Worker.abort w, ([] : List ExecAction)) := by
  simp [Worker.exec, Worker.abort]

/-- C4: a guard with budget 0 is a no-op (not armed, its watchdog never
terminates or flags, its drop does nothing); with a positive budget,
cancellation first exits silently, timeout first calls terminate-execution
and sets the triggered flag the supervisor reads, and dropping the guard
sends cancellation and then joins the watchdog thread. -/
theorem C4_timeout_guard (W : Nat) :
    (W = 0 →
      (TimeoutGuard.new W).armed = false ∧
      (∀ wv : WatchdogWait,
        (TimeoutGuard.new W).runWatchdog wv = (false, TimeoutGuard.new W)) ∧
      TimeoutGuard.dropGuard (TimeoutGuard.new W) = []) ∧
    (W ≠ 0 →
      (TimeoutGuard.new W).runWatchdog WatchdogWait.cancelled = (false, TimeoutGuard.new W) ∧
      (TimeoutGuard.new W).runWatchdog WatchdogWait.timedOut =
        (true, { armed := true, triggered := true }) ∧
      (((TimeoutGuard.new W).runWatchdog WatchdogWait.timedOut).2).was_triggered = true ∧
      TimeoutGuard.dropGuard (TimeoutGuard.new W) =
        [GuardDropAction.sendCancel, GuardDropAction.joinThread]) := by
  constructor
  · rintro rfl
    exact ⟨rfl, fun wv => by cases wv <;> rfl, rfl⟩
  · intro h
    have harm : (W != 0) = true := by
      simpa using h
    refine ⟨?_, ?_, ?_, ?_⟩ <;>
      simp [TimeoutGuard.new, TimeoutGuard.runWatchdog, TimeoutGuard.dropGuard,
        TimeoutGuard.was_triggered, harm]

/-- C4, witnessed at budgets 0 and 500. -/
theorem C4_timeout_guard_witness :
    TimeoutGuard.dropGuard (TimeoutGuard.new 0) = [] ∧
    TimeoutGuard.dropGuard (TimeoutGuard.new 500) =
      [GuardDropAction.sendCancel, GuardDropAction.joinThread] :=
  ⟨((C4_timeout_guard 0).1 rfl).2.2, ((C4_timeout_guard 500).2 (by decide)).2.2.2⟩

/-- C5: an allocation whose grant would push the running total over the cap
is refused: null pointer back, counter rolled back to its old value, and the
shared memory-limit-hit flag set. -/
theorem C5_alloc_refusal (al : CustomAllocator) (n : Nat)
    (hfit : al.count + n < usizeSize)
    (hover : al.max < al.count + n) :
    (al.allocate n).1 = none ∧
    (al.allocate n).2.count = al.count ∧
    (al.allocate n).2.memory_limit_hit = true := by
  have hn : n < usizeSize := by omega
  have hc : al.count < usizeSize := by omega
  have e1 : n % usizeSize = n := Nat.mod_eq_of_lt hn
  have e2 : (al.count + n) % usizeSize = al.count + n := Nat.mod_eq_of_lt hfit
  unfold CustomAllocator.allocate wadd wsub
  simp only [e1, e2, if_pos hover, gt_iff_lt]
  refine ⟨trivial, ?_, trivial⟩
  have e3 : al.count + n + (usizeSize - n) = al.count + usizeSize := by omega
  rw [e3, Nat.add_mod_right]
  exact Nat.mod_eq_of_lt hc

/-- C5, witnessed: cap 10 bytes, 5 live, a 6-byte request refused. -/
theorem C5_alloc_refusal_witness :
    (CustomAllocator.allocate { max := 10, count := 5, memory_limit_hit := false } 6).1 = none ∧
    (CustomAllocator.allocate { max := 10, count := 5, memory_limit_hit := false } 6).2.count = 5 ∧
    (CustomAllocator.allocate
      { max := 10, count := 5, memory_limit_hit := false } 6).2.memory_limit_hit = true :=
  C5_alloc_refusal { max := 10, count := 5, memory_limit_hit := false } 6
    (by decide) (by decide)

/-- C7: with a zero budget or off Linux, `CpuEnforcer::new` returns `None`,
leaves the registry untouched, takes no timer action (nothing created or
armed), and the resulting `cpu_limit_hit` is `false` whatever fires. -/
theorem C7_cpu_enforcer_disabled (p : CpuPlatform) (id : Nat) (reg : List Nat) (ms : Nat)
    (h : ms = 0 ∨ p.isLinux = false) :
    (CpuEnforcer.new p id reg ms).1 = none ∧
    (CpuEnforcer.new p id reg ms).2.1 = reg ∧
    (CpuEnforcer.new p id reg ms).2.2 = [] ∧
    ∀ fired : Bool, cpuLimitHitOf (CpuEnforcer.new p id reg ms).1 fired = false := by
  rcases h with rfl | hl
  · by_cases hp : p.isLinux = false <;>
      simp [CpuEnforcer.new, hp, cpuLimitHitOf]
  · simp [CpuEnforcer.new, hl, cpuLimitHitOf]

/-- C7, witnessed on a non-Linux platform with a 50 ms budget. -/
theorem C7_cpu_enforcer_disabled_witness :
    (CpuEnforcer.new { isLinux := false, timerCreateOk := true, timerSettimeOk := true }
      1 [] 50).1 = none ∧
    (CpuEnforcer.new { isLinux := false, timerCreateOk := true, timerSettimeOk := true }
      1 [] 50).2.1 = [] ∧
    (CpuEnforcer.new { isLinux := false, timerCreateOk := true, timerSettimeOk := true }
      1 [] 50).2.2 = [] ∧
    ∀ fired : Bool,
      cpuLimitHitOf (CpuEnforcer.new
        { isLinux := false, timerCreateOk := true, timerSettimeOk := true } 1 [] 50).1
        fired = false :=
  C7_cpu_enforcer_disabled
    { isLinux := false, timerCreateOk := true, timerSettimeOk := true } 1 [] 50
    (Or.inr rfl)

/-- Indexing facts feeding the counter invariant: a looked-up element is
bounded by the sum, erasing it subtracts it, setting replaces it. -/
theorem listGet_sum (l : List Nat) (i a : Nat) (h : l.get? i = some a) :
    a ≤ l.sum ∧ (l.eraseIdx i).sum = l.sum - a ∧
      ∀ b, (l.set i b).sum = l.sum - a + b := by
  induction l generalizing i with
  | nil => simp at h
  | cons x xs ih =>
    cases i with
    | zero =>
      simp only [List.get?_cons_zero, Option.some.injEq] at h
      subst h
      simp only [List.eraseIdx_cons_zero, List.set_cons_zero, List.sum_cons]
      refine ⟨by omega, by omega, fun b => by simp [List.sum_cons]; omega⟩
    | succ j =>
      have hj := ih j (by simpa using h)
      simp only [List.eraseIdx_cons_succ, List.set_cons_succ, List.sum_cons]
      refine ⟨by omega, by omega, fun b => ?_⟩
      have := hj.2.2 b
      simp [List.sum_cons, this]
      omega

/-- A looked-up element is a member. -/
theorem listMem_of_get (l : List Nat) (i a : Nat) (h : l.get? i = some a) : a ∈ l := by
  induction l generalizing i with
  | nil => simp at h
  | cons x xs ih =>
    cases i with
    | zero =>
      simp only [List.get?_cons_zero, Option.some.injEq] at h
      subst h
      exact List.mem_cons_self x xs
    | succ j => exact List.mem_cons_of_mem x (ih j (by simpa using h))

/-- Members survive erasure backwards. -/
theorem listMem_eraseIdx {l : List Nat} {x : Nat} {i : Nat} (h : x ∈ l.eraseIdx i) :
    x ∈ l := by
  induction l generalizing i with
  | nil => simp [List.eraseIdx] at h
  | cons y ys ih =>
    cases i with
    | zero =>
      simp only [List.eraseIdx_cons_zero] at h
      exact List.mem_cons_of_mem y h
    | succ j =>
      simp only [List.eraseIdx_cons_succ, List.mem_cons] at h
      rcases h with rfl | h
      · exact List.mem_cons_self _ _
      · exact List.mem_cons_of_mem y (ih h)

/-- A member of `l.set i b` is a member of `l` or is `b`. -/
theorem listMem_set {l : List Nat} {x i b : Nat} (h : x ∈ l.set i b) : x ∈ l ∨ x = b := by
  induction l generalizing i with
  | nil => simp [List.set] at h
  | cons y ys ih =>
    cases i with
    | zero =>
      simp only [List.set_cons_zero, List.mem_cons] at h
      rcases h with rfl | h
      · exact Or.inr rfl
      · exact Or.inl (List.mem_cons_of_mem y h)
    | succ j =>
      simp only [List.set_cons_succ, List.mem_cons] at h
      rcases h with rfl | h
      · exact Or.inl (List.mem_cons_self _ _)
      · rcases ih h with h2 | h2
        · exact Or.inl (List.mem_cons_of_mem y h2)
        · exact Or.inr h2

/-- One engine operation preserves the counter invariant. -/
theorem allocInv_step (m : AllocModel) (op : AllocOp) (h : AllocInv m) :
    AllocInv (m.step op) := by
  obtain ⟨hcount, hbound⟩ := h
  have hcw : m.al.count < usizeSize := by
    rw [hcount]
    exact Nat.mod_lt _ (by decide)
  cases op with
  | alloc n =>
    simp only [AllocModel.step]
    by_cases hc : wadd m.al.count (n % usizeSize) > m.al.max
    · have heq : m.al.allocate n =
          (none, { m.al with
            count := wsub (wadd m.al.count (n % usizeSize)) (n % usizeSize),
            memory_limit_hit := true }) := by
        simp only [CustomAllocator.allocate]
        rw [if_pos hc]
      simp only [heq, Option.isSome_none, Bool.false_eq_true, if_false]
      refine ⟨?_, hbound⟩
      show wsub (wadd m.al.count (n % usizeSize)) (n % usizeSize) = m.live.sum % usizeSize
      unfold wadd wsub usizeSize at *
      omega
    · have heq : m.al.allocate n =
          (some (), { m.al with count := wadd m.al.count (n % usizeSize) }) := by
        simp only [CustomAllocator.allocate]
        rw [if_neg hc]
      simp only [heq, Option.isSome_some, if_true]
      refine ⟨?_, ?_⟩
      · show wadd m.al.count (n % usizeSize) = (n % usizeSize + m.live.sum) % usizeSize
        unfold wadd usizeSize at *
        omega
      · intro x hx
        simp only [Option.isSome_some, if_true, List.mem_cons] at hx
        rcases hx with rfl | hx
        · exact Nat.mod_lt _ (by decide)
        · exact hbound x hx
  | allocUninit n =>
    simp only [AllocModel.step, CustomAllocator.allocate_uninitialized]
    by_cases hc : wadd m.al.count (n % usizeSize) > m.al.max
    · have heq : m.al.allocate n =
          (none, { m.al with
            count := wsub (wadd m.al.count (n % usizeSize)) (n % usizeSize),
            memory_limit_hit := true }) := by
        simp only [CustomAllocator.allocate]
        rw [if_pos hc]
      simp only [heq, Option.isSome_none, Bool.false_eq_true, if_false]
      refine ⟨?_, hbound⟩
      show wsub (wadd m.al.count (n % usizeSize)) (n % usizeSize) = m.live.sum % usizeSize
      unfold wadd wsub usizeSize at *
      omega
    · have heq : m.al.allocate n =
          (some (), { m.al with count := wadd m.al.count (n % usizeSize) }) := by
        simp only [CustomAllocator.allocate]
        rw [if_neg hc]
      simp only [heq, Option.isSome_some, if_true]
      refine ⟨?_, ?_⟩
      · show wadd m.al.count (n % usizeSize) = (n % usizeSize + m.live.sum) % usizeSize
        unfold wadd usizeSize at *
        omega
      · intro x hx
        simp only [Option.isSome_some, if_true, List.mem_cons] at hx
        rcases hx with rfl | hx
        · exact Nat.mod_lt _ (by decide)
        · exact hbound x hx
  | free i =>
    simp only [AllocModel.step]
    cases hget : m.live.get? i with
    | none => exact ⟨hcount, hbound⟩
    | some sz =>
      have hsum := listGet_sum m.live i sz hget
      have hszW : sz < usizeSize := hbound sz (listMem_of_get m.live i sz hget)
      refine ⟨?_, fun x hx => hbound x (listMem_eraseIdx hx)⟩
      show wsub m.al.count sz = (m.live.eraseIdx i).sum % usizeSize
      rw [hsum.2.1]
      have h1 := hsum.1
      unfold wsub usizeSize at *
      omega
  | realloc i newlen =>
    simp only [AllocModel.step]
    cases hget : m.live.get? i with
    | none => exact ⟨hcount, hbound⟩
    | some oldsz =>
      dsimp only
      have hsum := listGet_sum m.live i oldsz hget
      have hozW : oldsz < usizeSize := hbound oldsz (listMem_of_get m.live i oldsz hget)
      by_cases hc : wadd m.al.count (wsub newlen oldsz) > m.al.max
      · have heq : m.al.reallocate oldsz newlen =
            (none, { m.al with
              count := wsub (wadd m.al.count (wsub newlen oldsz)) (wsub newlen oldsz),
              memory_limit_hit := true }) := by
          simp only [CustomAllocator.reallocate]
          rw [if_pos hc]
        simp only [heq, Option.isSome_none, Bool.false_eq_true, if_false]
        refine ⟨?_, hbound⟩
        show wsub (wadd m.al.count (wsub newlen oldsz)) (wsub newlen oldsz) =
          m.live.sum % usizeSize
        unfold wadd wsub usizeSize at *
        omega
      · have heq : m.al.reallocate oldsz newlen =
            (some (), { m.al with count := wadd m.al.count (wsub newlen oldsz) }) := by
          simp only [CustomAllocator.reallocate]
          rw [if_neg hc]
        simp only [heq, Option.isSome_some, if_true]
        refine ⟨?_, ?_⟩
        · show wadd m.al.count (wsub newlen oldsz) =
            (m.live.set i (newlen % usizeSize)).sum % usizeSize
          rw [hsum.2.2 (newlen % usizeSize)]
          have h1 := hsum.1
          unfold wadd wsub usizeSize at *
          omega
        · intro x hx
          simp only [Option.isSome_some, if_true] at hx
          rcases listMem_set hx with h2 | h2
          · exact hbound x h2
          · subst h2
            exact Nat.mod_lt _ (by decide)

/-- The counter invariant holds along any fold of engine operations. -/
theorem allocInv_foldl (ops : List AllocOp) (m : AllocModel) (h : AllocInv m) :
    AllocInv (ops.foldl AllocModel.step m) := by
  induction ops generalizing m with
  | nil => exact h
  | cons op rest ih => exact ih _ (allocInv_step m op h)

/-- C6: at every point of any sequence of allocate, allocate-uninitialized,
free, and reallocate operations, the counter equals the sum of the live
buffer sizes (as the wrapping `usize` it is); moreover a refused allocate
and a refused reallocate leave the counter exactly where it was (the
tentative increment is rolled back). -/
theorem C6_counter_sum (mx : Nat) (ops : List AllocOp) :
    ((AllocModel.run mx ops).al.count = (AllocModel.run mx ops).live.sum % usizeSize) ∧
    (∀ al : CustomAllocator, ∀ n : Nat, al.count < usizeSize →
      (al.allocate n).1 = none → (al.allocate n).2.count = al.count) ∧
    (∀ al : CustomAllocator, ∀ oldlen newlen : Nat, al.count < usizeSize →
      (al.reallocate oldlen newlen).1 = none →
        (al.reallocate oldlen newlen).2.count = al.count) := by
  refine ⟨?_, ?_, ?_⟩
  · have h0 : AllocInv (AllocModel.mk0 mx) := by
      constructor
      · rfl
      · intro x hx
        simp [AllocModel.mk0] at hx
    exact (allocInv_foldl ops (AllocModel.mk0 mx) h0).1
  · intro al n hcw hnone
    by_cases hc : wadd al.count (n % usizeSize) > al.max
    · have h2 : (al.allocate n).2.count =
          wsub (wadd al.count (n % usizeSize)) (n % usizeSize) := by
        simp only [CustomAllocator.allocate]
        rw [if_pos hc]
      rw [h2]
      unfold wadd wsub usizeSize at *
      omega
    · have h1 : (al.allocate n).1 = some () := by
        simp only [CustomAllocator.allocate]
        rw [if_neg hc]
      rw [h1] at hnone
      exact Option.noConfusion hnone
  · intro al oldlen newlen hcw hnone
    by_cases hc : wadd al.count (wsub newlen oldlen) > al.max
    · have h2 : (al.reallocate oldlen newlen).2.count =
          wsub (wadd al.count (wsub newlen oldlen)) (wsub newlen oldlen) := by
        simp only [CustomAllocator.reallocate]
        rw [if_pos hc]
      rw [h2]
      unfold wadd wsub usizeSize at *
      omega
    · have h1 : (al.reallocate oldlen newlen).1 = some () := by
        simp only [CustomAllocator.reallocate]
        rw [if_neg hc]
      rw [h1] at hnone
      exact Option.noConfusion hnone

/-- C6, witnessed on a concrete run (two grants and a free under a 100-byte
cap) and concrete refusals. -/
theorem C6_counter_sum_witness :
    ((AllocModel.run 100 [AllocOp.alloc 30, AllocOp.alloc 50, AllocOp.free 0]).al.count =
      (AllocModel.run 100
        [AllocOp.alloc 30, AllocOp.alloc 50, AllocOp.free 0]).live.sum % usizeSize) ∧
    (CustomAllocator.allocate { max := 10, count := 7, memory_limit_hit := false } 8).2.count = 7 ∧
    (CustomAllocator.reallocate
      { max := 10, count := 7, memory_limit_hit := false } 2 9).2.count = 7 := by
  refine ⟨(C6_counter_sum 100 [AllocOp.alloc 30, AllocOp.alloc 50, AllocOp.free 0]).1, ?_, ?_⟩
  · exact (C6_counter_sum 0 []).2.1 { max := 10, count := 7, memory_limit_hit := false } 8
      (by decide) (by decide)
  · exact (C6_counter_sum 0 []).2.2 { max := 10, count := 7, memory_limit_hit := false } 2 9
      (by decide) (by decide)

/-- C8 counterexample: `op_fetch_init` called with an empty resource table
(a closed handle) panics — `take::<FetchInit>(rid).unwrap()` — rather than
returning a script-observable resource error, so the claim's "never panics,
for all of fetch_init, ..." fails at this input. -/
theorem C8_host_ops_cex :
    op_fetch_init ResourceTable.empty 0 = OpOutcome.panicked := rfl

/-- C8 amended: `fetch_respond`, the three streaming respond ops, and
`scheduled_respond` return a script-observable resource error (table
untouched, no panic) on a closed, consumed, or wrong-typed handle; but
`fetch_init` and `scheduled_init`, which unwrap the table lookup, panic on
such a handle instead. -/
theorem C8_host_ops_amended :
    (∀ (t : ResourceTable) (rid : Nat) (meta : ResponseMeta) (body : Option (List Nat)),
      t.hasFetchTx rid = false → op_fetch_respond t rid meta body = OpOutcome.resErr t) ∧
    (∀ (t : ResourceTable) (rid : Nat) (meta : ResponseMeta),
      t.hasFetchTx rid = false →
        op_fetch_respond_stream_start t rid meta = OpOutcome.resErr t) ∧
    (∀ (t : ResourceTable) (rid : Nat) (chunk : List Nat),
      t.hasFetchStreamTx rid = false →
        op_fetch_respond_stream_chunk t rid chunk = OpOutcome.resErr t) ∧
    (∀ (t : ResourceTable) (rid : Nat),
      t.hasFetchStreamTx rid = false → op_fetch_respond_stream_end t rid = OpOutcome.resErr t) ∧
    (∀ (t : ResourceTable) (rid : Nat),
      t.hasScheduledInit rid = false → op_scheduled_respond t rid = OpOutcome.resErr t) ∧
    (∀ (t : ResourceTable) (rid : Nat),
      t.hasFetchInit rid = false → op_fetch_init t rid = OpOutcome.panicked) ∧
    (∀ (t : ResourceTable) (rid : Nat),
      t.hasScheduledInit rid = false → op_scheduled_init t rid = OpOutcome.panicked) := by
  refine ⟨?_, ?_, ?_, ?_, ?_, ?_, ?_⟩
  · intro t rid meta body h
    unfold ResourceTable.hasFetchTx at h
    rcases hf : t.find rid with _ | r
    · simp [op_fetch_respond, hf]
    · rw [hf] at h
      cases r <;> simp_all [op_fetch_respond, hf]
  · intro t rid meta h
    unfold ResourceTable.hasFetchTx at h
    rcases hf : t.find rid with _ | r
    · simp [op_fetch_respond_stream_start, hf]
    · rw [hf] at h
      cases r <;> simp_all [op_fetch_respond_stream_start, hf]
  · intro t rid chunk h
    unfold ResourceTable.hasFetchStreamTx at h
    rcases hf : t.find rid with _ | r
    · simp [op_fetch_respond_stream_chunk, hf]
    · rw [hf] at h
      cases r <;> simp_all [op_fetch_respond_stream_chunk, hf]
  · intro t rid h
    unfold ResourceTable.hasFetchStreamTx at h
    rcases hf : t.find rid with _ | r
    · simp [op_fetch_respond_stream_end, hf]
    · rw [hf] at h
      cases r <;> simp_all [op_fetch_respond_stream_end, hf]
  · intro t rid h
    unfold ResourceTable.hasScheduledInit at h
    rcases hf : t.find rid with _ | r
    · simp [op_scheduled_respond, hf]
    · rw [hf] at h
      cases r <;> simp_all [op_scheduled_respond, hf]
  · intro t rid h
    unfold ResourceTable.hasFetchInit at h
    rcases hf : t.find rid with _ | r
    · simp [op_fetch_init, hf]
    · rw [hf] at h
      cases r <;> simp_all [op_fetch_init, hf]
  · intro t rid h
    unfold ResourceTable.hasScheduledInit at h
    rcases hf : t.find rid with _ | r
    · simp [op_scheduled_init, hf]
    · rw [hf] at h
      cases r <;> simp_all [op_scheduled_init, hf]

/-- C8 amended, witnessed: against a table holding only a scheduled payload
at rid 0, a fetch respond on rid 5 gets a resource error and a fetch init on
rid 5 panics. -/
theorem C8_host_ops_amended_witness :
    op_fetch_respond c8table 5 { status := 200, headers := [] } none =
      OpOutcome.resErr c8table ∧
    op_fetch_init c8table 5 = OpOutcome.panicked :=
  ⟨C8_host_ops_amended.1 c8table 5 { status := 200, headers := [] } none rfl,
   C8_host_ops_amended.2.2.2.2.2.1 c8table 5 rfl⟩

/-- One producer/consumer step keeps "received, then buffered, then still
pending" equal to the original chunk sequence. -/
theorem streamStep_inv (s : StreamRun) (st : StreamStep) :
    (s.step st).received ++ (s.step st).chan.buf ++ (s.step st).pending =
      s.received ++ s.chan.buf ++ s.pending := by
  cases st with
  | produce =>
    cases hp : s.pending with
    | nil => simp [StreamRun.step, hp]
    | cons x rest =>
      by_cases hlt : s.chan.buf.length < s.chan.cap
      · have hsend : s.chan.send x = some { cap := s.chan.cap, buf := s.chan.buf ++ [x] } := by
          simp [Chan.send, hlt]
        simp [StreamRun.step, hp, hsend]
      · have hsend : s.chan.send x = none := by
          simp [Chan.send, hlt]
        simp [StreamRun.step, hp, hsend]
  | consume =>
    cases hb : s.chan.buf with
    | nil => simp [StreamRun.step, Chan.recv, hb]
    | cons y rest => simp [StreamRun.step, Chan.recv, hb]

/-- The invariant holds along any schedule. -/
theorem streamRun_inv (steps : List StreamStep) (s : StreamRun) :
    (steps.foldl StreamRun.step s).received ++ (steps.foldl StreamRun.step s).chan.buf ++
      (steps.foldl StreamRun.step s).pending = s.received ++ s.chan.buf ++ s.pending := by
  induction steps generalizing s with
  | nil => rfl
  | cons st rest ih =>
    calc (rest.foldl StreamRun.step (s.step st)).received ++ _ ++ _ =
        (s.step st).received ++ (s.step st).chan.buf ++ (s.step st).pending := ih (s.step st)
      _ = s.received ++ s.chan.buf ++ s.pending := streamStep_inv s st

/-- C9: a streaming response's chunk channel is created with exactly
`STREAM_BUFFER_SIZE = 16` slots and delivered — status and headers first,
buffer still empty — on the sink the moment `stream_start` runs; a send
against a full buffer suspends (returns nothing, buffer unchanged); and
along any schedule of producer/consumer steps the consumer observes exactly
the sent chunks in send order (received, then buffered, then pending chunks
always form the original sequence, so a drained channel means the consumer
saw exactly the sent sequence). -/
theorem C9_stream_fifo (t : ResourceTable) (rid : Nat) (meta : ResponseMeta)
    (h : t.hasFetchTx rid = true) :
    (op_fetch_respond_stream_start t rid meta =
      OpOutcome.ok ((t.remove rid).next,
        { status := meta.status, headers := meta.headers,
          chan := { cap := STREAM_BUFFER_SIZE, buf := [] } })
        ((t.remove rid).add (Res.fetchStreamTx (t.remove rid).next)).2) ∧
    STREAM_BUFFER_SIZE = 16 ∧
    (∀ (c : Chan) (x : Chunk), c.cap ≤ c.buf.length → c.send x = none) ∧
    (∀ (chunks : List Chunk) (steps : List StreamStep),
      (StreamRun.run chunks steps).received ++ (StreamRun.run chunks steps).chan.buf ++
        (StreamRun.run chunks steps).pending = chunks) ∧
    (∀ (chunks : List Chunk) (steps : List StreamStep),
      (StreamRun.run chunks steps).pending = [] →
      (StreamRun.run chunks steps).chan.buf = [] →
      (StreamRun.run chunks steps).received = chunks) := by
  refine ⟨?_, rfl, ?_, ?_, ?_⟩
  · unfold ResourceTable.hasFetchTx at h
    rcases hf : t.find rid with _ | r
    · rw [hf] at h
      exact absurd h (by simp)
    · rw [hf] at h
      cases r <;> simp_all [op_fetch_respond_stream_start, hf, ResourceTable.add]
  · intro c x hfull
    simp [Chan.send, Nat.not_lt.mpr hfull]
  · intro chunks steps
    have := streamRun_inv steps
      { pending := chunks, chan := { cap := STREAM_BUFFER_SIZE, buf := [] }, received := [] }
    simpa [StreamRun.run] using this
  · intro chunks steps hpend hbuf
    have hinv := streamRun_inv steps
      { pending := chunks, chan := { cap := STREAM_BUFFER_SIZE, buf := [] }, received := [] }
    rw [show steps.foldl StreamRun.step
        { pending := chunks, chan := { cap := STREAM_BUFFER_SIZE, buf := [] }, received := [] } =
        StreamRun.run chunks steps from rfl] at hinv
    rw [hpend, hbuf] at hinv
    simpa using hinv

/-- C9, witnessed: against a table holding a sink, and on a concrete
two-chunk schedule that drains the channel. -/
theorem C9_stream_fifo_witness :
    STREAM_BUFFER_SIZE = 16 ∧
    (StreamRun.run [c9chunk1, c9chunk2]
      [StreamStep.produce, StreamStep.produce, StreamStep.consume,
        StreamStep.consume]).received = [c9chunk1, c9chunk2] :=
  ⟨(C9_stream_fifo c9table 0 { status := 200, headers := [] } rfl).2.1,
   (C9_stream_fifo c9table 0 { status := 200, headers := [] } rfl).2.2.2.2
     [c9chunk1, c9chunk2]
     [StreamStep.produce, StreamStep.produce, StreamStep.consume, StreamStep.consume]
     rfl rfl⟩

end OpenWorkers
